import Mathlib

/-
Verification of the subscription lifecycle core of the playeer-api backend:
the status deriver, the Paystack webhook processor, the expiry sweeper, the
cancellation and reactivation endpoints, and the onboarding billing update.
Definitions are shallow embeddings of the TypeScript source; timestamps are
milliseconds since the Unix epoch, and calendar arithmetic models the
JavaScript Date normalization used by the handlers.
-/

namespace Playeer

/-- Subscription plan enumeration from the user schema in src/models/User.ts
(field plan, enum free, monthly, yearly, default free). -/
inductive Plan
  | free
  | monthly
  | yearly
deriving DecidableEq, Repr

/-- Derived subscription status, the return type of getSubscriptionStatus in
src/controllers/subscriptionController.ts. -/
inductive SubStatus
  | free
  | active
  | canceled
  | expired
deriving DecidableEq, Repr

/-- Calendar date with the JavaScript Date component conventions: arbitrary
year, month index 0 to 11 in a normalized date, day of month starting at 1.
Time of day is omitted: setMonth and setFullYear leave it unchanged and no
claim below depends on it. -/
structure CalDate where
  year : Int
  month : Int
  day : Int
deriving DecidableEq, Repr

/-- Gregorian leap year test, as used by the JavaScript Date object. -/
def isLeapYear (y : Int) : Bool :=
  Int.emod y 4 = 0 && (Int.emod y 100 ≠ 0 || Int.emod y 400 = 0)

/-- Number of days of month index m (0-based) in year y. -/
def daysInMonth (y m : Int) : Int :=
  if m = 1 then (if isLeapYear y then 29 else 28)
  else if m = 3 ∨ m = 5 ∨ m = 8 ∨ m = 10 then 30
  else 31

/-- Validity of a calendar date: month index in range and day within the
month. -/
def isValidDate (d : CalDate) : Prop :=
  0 ≤ d.month ∧ d.month < 12 ∧ 1 ≤ d.day ∧ d.day ≤ daysInMonth d.year d.month

instance (d : CalDate) : Decidable (isValidDate d) := by
  unfold isValidDate; infer_instance

/-- Model of the JavaScript Date component normalization performed by the
constructor new Date(year, month, day) and by setMonth and setFullYear: the
month index is reduced into the year, and a day past the end of the resulting
month rolls forward into the following month. The single rollover step is
exact for 1 ≤ day ≤ 31, which covers every use below (inputs are valid
dates). -/
def jsMkDate (y m d : Int) : CalDate :=
  let y1 := y + Int.ediv m 12
  let m1 := Int.emod m 12
  let dim := daysInMonth y1 m1
  if d ≤ dim then ⟨y1, m1, d⟩
  else if m1 = 11 then ⟨y1 + 1, 0, d - dim⟩
  else ⟨y1, m1 + 1, d - dim⟩

/-- Renewal computation for the monthly plan in the webhook handlers:
renewalDate.setMonth(renewalDate.getMonth() + 1) in the primary handler in
src/controllers/activityController.ts, and new Date(y, m + 1, d) in the
alternate handler and in the onboarding flow. Both normalize identically. -/
def addOneMonthJS (d : CalDate) : CalDate :=
  jsMkDate d.year (d.month + 1) d.day

/-- Renewal computation for the yearly plan:
renewalDate.setFullYear(renewalDate.getFullYear() + 1) in the primary
handler, and new Date(y + 1, m, d) in the alternate handler and onboarding. -/
def addOneYearJS (d : CalDate) : CalDate :=
  jsMkDate (d.year + 1) d.month d.day

/-- Definition following the claim text of C2, not the source: calendar-aware
month addition that lands on the last valid day of the target month when the
source day does not exist there. Compared against the source computation. -/
def addOneMonthClamped (d : CalDate) : CalDate :=
  let y1 := d.year + Int.ediv (d.month + 1) 12
  let m1 := Int.emod (d.month + 1) 12
  ⟨y1, m1, min d.day (daysInMonth y1 m1)⟩

/-- Definition following the claim text of C2 for the yearly period:
calendar-aware year addition clamped to the last valid day of the target
month. -/
def addOneYearClamped (d : CalDate) : CalDate :=
  ⟨d.year + 1, d.month, min d.day (daysInMonth (d.year + 1) d.month)⟩

/-- Days since 1970-01-01 of a calendar date in the proleptic Gregorian
calendar (the standard civil-from-days inversion, with floor division). Used
only to embed a stored Date value as an instant. -/
def dateToDays (d : CalDate) : Int :=
  let m1 := d.month + 1
  let y := if m1 ≤ 2 then d.year - 1 else d.year
  let era := Int.ediv y 400
  let yoe := y - era * 400
  let mp := Int.emod (m1 + 9) 12
  let doy := Int.ediv (153 * mp + 2) 5 + d.day - 1
  let doe := yoe * 365 + Int.ediv yoe 4 - Int.ediv yoe 100 + doy
  era * 146097 + doe - 719468

/-- Milliseconds since the epoch of a calendar date at midnight. -/
def dateToMs (d : CalDate) : Int :=
  dateToDays d * 86400000

/-- Billing-relevant subset of the user record from src/models/User.ts,
together with the lifecycle fields consulted by the subscription queries.
Absence of an optional field models the mongoose field being unset. -/
structure Subscriber where
  id : Nat
  email : String
  plan : Plan
  renewalDate : Option Int
  paystackSubscriptionId : Option String
  isActive : Bool
  isDeleted : Bool
  role : String
deriving DecidableEq, Repr

/-- Status deriver getSubscriptionStatus from
src/controllers/subscriptionController.ts, with the current time passed
explicitly (the source reads new Date() internally). Times are milliseconds
since the epoch. -/
def getSubscriptionStatus (u : Subscriber) (now : Int) : SubStatus :=
  if u.plan = Plan.free then SubStatus.free
  else
    match u.renewalDate with
    | none => SubStatus.canceled
    | some t =>
      if t ≤ now then SubStatus.expired
      else if u.paystackSubscriptionId = none then SubStatus.canceled
      else SubStatus.active

/-- Configuration consumed by the webhook processor: the provider plan code
configured for the monthly tier (environment variable
PAYSTACK_MONTHLY_PLAN_CODE). -/
structure WebhookEnv where
  monthlyPlanCode : String
deriving DecidableEq, Repr

/-- Webhook event shapes dispatched by the paystackWebhook handler in
src/controllers/activityController.ts, as a tagged union. Optional fields
model payload members the handler guards with truthiness checks. -/
inductive WebhookEvent
  | chargeSuccess (subscriptionCode : String) (customerEmail : Option String)
      (planCode : String)
  | subscriptionDisable (subscriptionCode : Option String)
  | subscriptionNotRenew (subscriptionCode : Option String)
  | invoicePaymentFailed (subscriptionCode : Option String)
  | invoiceCreate
  | invoiceUpdate
  | unhandled (name : String)
deriving DecidableEq, Repr

/-- Model of the JavaScript toLowerCase call applied to the customer email
(ASCII lowering, character by character). -/
def lowerString (s : String) : String :=
  String.mk (s.toList.map Char.toLower)

/-- Plan tier and renewal date computed by the charge.success branch: the
monthly tier with a one month renewal when the event plan code equals the
configured monthly plan code, otherwise the yearly tier with a one year
renewal. -/
def chargeSuccessPlanAndRenewal (monthlyPlanCode planCode : String)
    (now : CalDate) : Plan × CalDate :=
  if planCode = monthlyPlanCode then (Plan.monthly, addOneMonthJS now)
  else (Plan.yearly, addOneYearJS now)

/-- Per-document update applied by the charge.success branch to the resolved
user (user.save after the field assignments): plan, renewalDate and
paystackSubscriptionId are all set to absolute computed values. -/
def chargeSuccessUpdate (env : WebhookEnv) (subscriptionCode planCode : String)
    (now : CalDate) (uid : Nat) (v : Subscriber) : Subscriber :=
  if v.id == uid then
    { v with
      plan := (chargeSuccessPlanAndRenewal env.monthlyPlanCode planCode now).1,
      renewalDate :=
        some (dateToMs (chargeSuccessPlanAndRenewal env.monthlyPlanCode planCode now).2),
      paystackSubscriptionId := some subscriptionCode }
  else v

/-- Effect of the charge.success branch on the user store: resolve the user
by the lowercased customer email (User.findOne on email), then set plan,
renewalDate and paystackSubscriptionId to the computed absolute values and
save. A missing customer email or an unresolved user is logged and leaves
the store unchanged. -/
def applyChargeSuccess (env : WebhookEnv) (subscriptionCode : String)
    (customerEmail : Option String) (planCode : String) (now : CalDate)
    (store : List Subscriber) : List Subscriber :=
  match customerEmail with
  | none => store
  | some e =>
    match store.find? (fun u => u.email == lowerString e) with
    | none => store
    | some u =>
      store.map (chargeSuccessUpdate env subscriptionCode planCode now u.id)

/-- Effect of the subscription.disable, subscription.not_renew and
invoice.payment_failed branches: resolve the user by stored
paystackSubscriptionId, set plan to free and clear renewalDate and
paystackSubscriptionId. A missing code or an unresolved user is logged and
leaves the store unchanged. The three branches of the source are textually
identical in their store effect. -/
def downgradeBySubscriptionCode (subscriptionCode : Option String)
    (store : List Subscriber) : List Subscriber :=
  match subscriptionCode with
  | none => store
  | some c =>
    match store.find? (fun u => u.paystackSubscriptionId == some c) with
    | none => store
    | some u =>
      store.map (fun v =>
        if v.id == u.id then
          { v with plan := Plan.free, renewalDate := none,
                   paystackSubscriptionId := none }
        else v)

/-- Event dispatch of the primary paystackWebhook handler, after signature
verification: the store effect of the switch on event.event. invoice.create,
invoice.update and unrecognized event names are logged and ignored. -/
def processVerifiedEvent (env : WebhookEnv) (now : CalDate)
    (ev : WebhookEvent) (store : List Subscriber) : List Subscriber :=
  match ev with
  | WebhookEvent.chargeSuccess sc em pc => applyChargeSuccess env sc em pc now store
  | WebhookEvent.subscriptionDisable c => downgradeBySubscriptionCode c store
  | WebhookEvent.subscriptionNotRenew c => downgradeBySubscriptionCode c store
  | WebhookEvent.invoicePaymentFailed c => downgradeBySubscriptionCode c store
  | WebhookEvent.invoiceCreate => store
  | WebhookEvent.invoiceUpdate => store
  | WebhookEvent.unhandled _ => store

/-- HTTP status and resulting store of the primary handler for a
signature-verified request: the handler responds 200 before the event
dispatch runs, so every verified event yields a success response. -/
def paystackWebhookVerified (env : WebhookEnv) (now : CalDate)
    (ev : WebhookEvent) (store : List Subscriber) : Nat × List Subscriber :=
  (200, processVerifiedEvent env now ev store)

/-- Selection filter of the daily cron sweep in src/app.ts: renewalDate
exists and is strictly older than two days before now, and the plan is
monthly or yearly. Times in milliseconds. -/
def sweepFilter (now : Int) (u : Subscriber) : Bool :=
  (match u.renewalDate with
   | some t => t < now - 2 * 24 * 60 * 60 * 1000
   | none => false)
  && (u.plan == Plan.monthly || u.plan == Plan.yearly)

/-- Update document of the sweep: set plan to free and unset renewalDate and
paystackSubscriptionId. -/
def sweepDowngrade (u : Subscriber) : Subscriber :=
  { u with plan := Plan.free, renewalDate := none,
           paystackSubscriptionId := none }

/-- The cron sweep as a single bulk update (User.updateMany): every document
matching the filter receives the downgrade update, every other document is
untouched. -/
def runSweep (now : Int) (store : List Subscriber) : List Subscriber :=
  store.map (fun u => if sweepFilter now u then sweepDowngrade u else u)

/-- Definition following the claim text of C4, not the source: a subscriber
is selected exactly when its plan is paid (not free) and its renewalDate is
older than now minus two days. Compared against the source filter. -/
def claimSweepMatch (now : Int) (u : Subscriber) : Bool :=
  u.plan != Plan.free
  && (match u.renewalDate with
      | some t => t < now - 2 * 24 * 60 * 60 * 1000
      | none => false)

/-- Outcome of the provider disable call as observed by the adapter in
src/utils/paystackUnsubscribe.ts: a 2xx response carrying a status flag, a
non-2xx HTTP error (axios throws), or a network error. -/
inductive ProviderDisableOutcome
  | ok (status : Bool)
  | httpError (code : Nat)
  | networkError
deriving DecidableEq, Repr

/-- Result shape of unsubscribePaystackSubscription (the error payload is
omitted). -/
structure PaystackUnsubscribeResult where
  success : Bool
deriving DecidableEq, Repr

/-- Adapter unsubscribePaystackSubscription from
src/utils/paystackUnsubscribe.ts: a 2xx response succeeds when its status
flag is set; a 404 is treated as already cancelled and counts as success;
every other error is a failure. -/
def unsubscribePaystackSubscription (r : ProviderDisableOutcome) :
    PaystackUnsubscribeResult :=
  match r with
  | ProviderDisableOutcome.ok st => ⟨st⟩
  | ProviderDisableOutcome.httpError c => if c = 404 then ⟨true⟩ else ⟨false⟩
  | ProviderDisableOutcome.networkError => ⟨false⟩

/-- Elevated role check used by the subscription endpoints. -/
def isElevated (role : String) : Bool :=
  role == "admin" || role == "moderator"

/-- HTTP status, resulting store and response record of a subscription
endpoint call. -/
structure EndpointResult where
  status : Nat
  store : List Subscriber
  body : Option Subscriber
deriving DecidableEq, Repr

/-- cancelSubscription from src/controllers/subscriptionController.ts: the
requester must be the subscriber or elevated; a free plan and an already
expired renewalDate are rejected; the provider disable call is attempted
when a paystackSubscriptionId is present, and on failure the handler logs
and continues regardless; the update unsets paystackSubscriptionId only,
keeping plan and renewalDate until the renewal date. The observed gateway
outcome is passed in; it does not influence control flow. -/
def cancelSubscriptionSC (requesterId : Nat) (requesterRole : String)
    (userId : Nat) (now : Int) (gw : ProviderDisableOutcome)
    (store : List Subscriber) : EndpointResult :=
  if !(requesterId == userId || isElevated requesterRole) then
    ⟨403, store, none⟩
  else
    match store.find? (fun v => v.id == userId) with
    | none => ⟨404, store, none⟩
    | some u =>
      if u.plan = Plan.free then ⟨400, store, none⟩
      else if (match u.renewalDate with
               | some t => decide (t ≤ now)
               | none => false) then ⟨400, store, none⟩
      else
        let _gatewayResult :=
          if u.paystackSubscriptionId.isSome then
            some (unsubscribePaystackSubscription gw)
          else none
        let newStore := store.map (fun v =>
          if v.id == userId then { v with paystackSubscriptionId := none }
          else v)
        ⟨200, newStore, some { u with paystackSubscriptionId := none }⟩

/-- cancelSubscription from src/controllers/userController.ts (the
self-service variant): rejects when no paystackSubscriptionId is stored;
surfaces a gateway failure as a 500 without touching the record; on gateway
success clears paystackSubscriptionId, keeping plan and renewalDate. -/
def cancelSubscriptionUC (userId : Nat) (gw : ProviderDisableOutcome)
    (store : List Subscriber) : EndpointResult :=
  match store.find? (fun v => v.id == userId) with
  | none => ⟨404, store, none⟩
  | some u =>
    match u.paystackSubscriptionId with
    | none => ⟨400, store, none⟩
    | some _ =>
      if !(unsubscribePaystackSubscription gw).success then ⟨500, store, none⟩
      else
        let newStore := store.map (fun v =>
          if v.id == userId then { v with paystackSubscriptionId := none }
          else v)
        ⟨200, newStore, some { u with paystackSubscriptionId := none }⟩

/-- reactivateSubscription from src/controllers/subscriptionController.ts:
elevated role only; the plan must be monthly or yearly and a renewal date is
required; the update sets plan and renewalDate, and sets
paystackSubscriptionId only when one was provided, leaving the stored value
otherwise. An invalid or missing plan is modelled as plan none. -/
def reactivateSubscription (requesterRole : String) (userId : Nat)
    (plan : Option Plan) (renewalDate : Option Int)
    (paystackSubscriptionId : Option String) (store : List Subscriber) :
    EndpointResult :=
  if !isElevated requesterRole then ⟨403, store, none⟩
  else
    match plan with
    | none => ⟨400, store, none⟩
    | some p =>
      if p = Plan.free then ⟨400, store, none⟩
      else
        match renewalDate with
        | none => ⟨400, store, none⟩
        | some rd =>
          match store.find? (fun v => v.id == userId) with
          | none => ⟨404, store, none⟩
          | some u =>
            let upd := fun (v : Subscriber) =>
              { v with plan := p, renewalDate := some rd,
                       paystackSubscriptionId :=
                         match paystackSubscriptionId with
                         | some c => some c
                         | none => v.paystackSubscriptionId }
            let newStore := store.map (fun v =>
              if v.id == userId then upd v else v)
            ⟨200, newStore, some (upd u)⟩

/-- Renewal date written by the onboarding flow (completeOnboarding in the
onboarding controller) for the selected plan: none for the free plan, one
calendar period ahead via the JavaScript Date constructor otherwise. -/
def onboardingPlanRenewal (p : Plan) (now : CalDate) : Option CalDate :=
  match p with
  | Plan.free => none
  | Plan.monthly => some (addOneMonthJS now)
  | Plan.yearly => some (addOneYearJS now)

/-- Billing-field effect of the onboarding profile update: updateData sets
plan and the computed renewalDate, and does not mention
paystackSubscriptionId, which therefore keeps its stored value. The
JavaScript undefined renewalDate of the free plan is modelled as clearing
the field. -/
def completeOnboardingBilling (p : Plan) (now : CalDate) (u : Subscriber) :
    Subscriber :=
  { u with plan := p,
           renewalDate := (onboardingPlanRenewal p now).map dateToMs }

/-- Billing invariant of the specification: a free plan carries neither a
renewalDate nor a paystackSubscriptionId. -/
def billingInvariant (u : Subscriber) : Prop :=
  u.plan = Plan.free → u.renewalDate = none ∧ u.paystackSubscriptionId = none

instance (u : Subscriber) : Decidable (billingInvariant u) := by
  unfold billingInvariant; infer_instance

/-- JSON values, modelling the parsed request body (req.body) handed to the
webhook handlers by the express JSON middleware. Object members keep
insertion order. -/
inductive Json
  | null
  | bool (b : Bool)
  | num (n : Int)
  | str (s : String)
  | arr (xs : List Json)
  | obj (kvs : List (String × Json))

mutual

/-- Model of JSON.stringify on the fragment of JSON used by the payloads:
no insignificant whitespace, members in insertion order, strings without
escape sequences. -/
def stringifyJson : Json → String
  | Json.null => "null"
  | Json.bool true => "true"
  | Json.bool false => "false"
  | Json.num n => toString n
  | Json.str s => "\"" ++ s ++ "\""
  | Json.arr xs => "[" ++ stringifyArr xs ++ "]"
  | Json.obj kvs => "\x7b" ++ stringifyObj kvs ++ "\x7d"

/-- Comma-separated serialization of array elements. -/
def stringifyArr : List Json → String
  | [] => ""
  | [x] => stringifyJson x
  | x :: y :: rest => stringifyJson x ++ "," ++ stringifyArr (y :: rest)

/-- Comma-separated serialization of object members. -/
def stringifyObj : List (String × Json) → String
  | [] => ""
  | [(k, v)] => "\"" ++ k ++ "\":" ++ stringifyJson v
  | (k, v) :: y :: rest =>
    "\"" ++ k ++ "\":" ++ stringifyJson v ++ "," ++ stringifyObj (y :: rest)

end

/-- JSON insignificant whitespace. -/
def jsonWs (c : Char) : Bool :=
  c = ' ' || c = '\n' || c = '\t' || c = '\r'

/-- Drop leading JSON whitespace. -/
def skipWs : List Char → List Char
  | [] => []
  | c :: rest => if jsonWs c then skipWs rest else c :: rest

/-- Scan the characters of a JSON string up to the closing quote (no escape
sequences). -/
def scanStringChars : List Char → Option (List Char × List Char)
  | [] => none
  | c :: rest =>
    if c = '"' then some ([], rest)
    else
      match scanStringChars rest with
      | some (s, r) => some (c :: s, r)
      | none => none

/-- Scan a maximal run of decimal digits. -/
def scanDigits : List Char → List Char × List Char
  | [] => ([], [])
  | c :: rest =>
    if c.isDigit then
      let p := scanDigits rest
      (c :: p.1, p.2)
    else ([], c :: rest)

/-- Numeric value of a digit run. -/
def digitsToNat (ds : List Char) : Nat :=
  ds.foldl (fun a c => a * 10 + (c.toNat - 48)) 0

mutual

/-- Model of JSON.parse (the express JSON body decoder) on the fragment used
by the payloads: objects, arrays, unescaped strings, integers, literals and
insignificant whitespace; fuel-bounded recursive descent. -/
def parseJsonV : Nat → List Char → Option (Json × List Char)
  | 0, _ => none
  | fuel + 1, cs =>
    match skipWs cs with
    | 'n' :: 'u' :: 'l' :: 'l' :: r => some (Json.null, r)
    | 't' :: 'r' :: 'u' :: 'e' :: r => some (Json.bool true, r)
    | 'f' :: 'a' :: 'l' :: 's' :: 'e' :: r => some (Json.bool false, r)
    | '"' :: r =>
      (match scanStringChars r with
       | some (s, r2) => some (Json.str (String.mk s), r2)
       | none => none)
    | '-' :: r =>
      (match scanDigits r with
       | ([], _) => none
       | (ds, r2) => some (Json.num (-(digitsToNat ds : Int)), r2))
    | '[' :: r =>
      (match skipWs r with
       | [] => none
       | c :: r2 =>
         if c = ']' then some (Json.arr [], r2)
         else
           match parseArrItems fuel (c :: r2) with
           | some (xs, r3) => some (Json.arr xs, r3)
           | none => none)
    | c :: r =>
      if c = Char.ofNat 123 then
        match skipWs r with
        | [] => none
        | c2 :: r2 =>
          if c2 = Char.ofNat 125 then some (Json.obj [], r2)
          else
            match parseObjItems fuel (c2 :: r2) with
            | some (kvs, r3) => some (Json.obj kvs, r3)
            | none => none
      else if c.isDigit then
        match scanDigits (c :: r) with
        | (ds, r2) => some (Json.num (digitsToNat ds : Int), r2)
      else none
    | [] => none

/-- Parse the remaining comma-separated elements of a nonempty array, up to
the closing bracket. -/
def parseArrItems : Nat → List Char → Option (List Json × List Char)
  | 0, _ => none
  | fuel + 1, cs =>
    match parseJsonV fuel cs with
    | none => none
    | some (x, r) =>
      match skipWs r with
      | [] => none
      | c :: r2 =>
        if c = ',' then
          match parseArrItems fuel r2 with
          | some (xs, r3) => some (x :: xs, r3)
          | none => none
        else if c = ']' then some ([x], r2)
        else none

/-- Parse the comma-separated members of a nonempty object, up to the
closing brace. -/
def parseObjItems : Nat → List Char → Option (List (String × Json) × List Char)
  | 0, _ => none
  | fuel + 1, cs =>
    match skipWs cs with
    | '"' :: r =>
      (match scanStringChars r with
       | none => none
       | some (k, r2) =>
         match skipWs r2 with
         | ':' :: r3 =>
           (match parseJsonV fuel r3 with
            | none => none
            | some (v, r4) =>
              match skipWs r4 with
              | [] => none
              | c :: r5 =>
                if c = ',' then
                  match parseObjItems fuel r5 with
                  | some (kvs, r6) => some ((String.mk k, v) :: kvs, r6)
                  | none => none
                else if c = Char.ofNat 125 then
                  some ([(String.mk k, v)], r5)
                else none)
         | _ => none)
    | _ => none

end

/-- Parse a whole JSON document, requiring only whitespace after the value. -/
def jsonParse (s : String) : Option Json :=
  match parseJsonV (2 * s.length + 4) s.toList with
  | some (j, r) => if (skipWs r).isEmpty then some j else none
  | none => none

/-- Body as delivered to the primary webhook handler: a raw Buffer on the
raw-body route (express.raw is mounted for the webhook path in src/app.ts),
or an already parsed JSON value otherwise. -/
inductive ReqBody
  | buffer (raw : String)
  | parsed (j : Json)

/-- The string the primary handler feeds to the HMAC (rawBody in
src/controllers/activityController.ts): the exact raw bytes when the body is
a Buffer, and JSON.stringify of the parsed body otherwise. -/
def hashedMessageV1 : ReqBody → String
  | ReqBody.buffer raw => raw
  | ReqBody.parsed j => stringifyJson j

/-- The string the alternate handler hashes: always JSON.stringify of the
parsed request body; the raw bytes are never consulted. Returns none when
the body does not parse (the JSON middleware rejects such a request before
the handler runs). -/
def hashedMessageV2 (rawBody : String) : Option String :=
  (jsonParse rawBody).map stringifyJson

/-- Signature check of the primary handler, abstracted over the keyed hash:
string equality of the claimed header against the hex HMAC of the hashed
message. A missing header is rejected. -/
def verifyV1 (hmacHex : String → String → String) (secret : String)
    (body : ReqBody) (signature : Option String) : Bool :=
  match signature with
  | none => false
  | some sg => sg == hmacHex secret (hashedMessageV1 body)

/-- Signature check of the alternate handler: the hex HMAC of
JSON.stringify of the parsed body, compared against the claimed header. -/
def verifyV2 (hmacHex : String → String → String) (secret : String)
    (rawBody : String) (signature : Option String) : Bool :=
  match jsonParse rawBody, signature with
  | some j, some sg => sg == hmacHex secret (stringifyJson j)
  | _, _ => false

/-- Helper: find? commutes with a map that does not change the value of the
predicate. -/
theorem find_map_congr {α : Type} (p : α → Bool) (f : α → α)
    (h : ∀ a, p (f a) = p a) :
    ∀ l : List α, (l.map f).find? p = (l.find? p).map f := by
  intro l
  induction l with
  | nil => rfl
  | cons a t ih =>
    cases hpa : p a with
    | true =>
      rw [List.map_cons, List.find?_cons_of_pos _ (by rw [h a, hpa]),
        List.find?_cons_of_pos _ hpa]
      rfl
    | false =>
      rw [List.map_cons, List.find?_cons_of_neg _ (by rw [h a, hpa]; simp),
        List.find?_cons_of_neg _ (by rw [hpa]; simp), ih]

/-- C1: for every subscriber record and every time now, the status deriver
follows the ordered first-match rule list: a free plan gives free; otherwise
a missing renewalDate gives canceled; otherwise a renewalDate at or before
now gives expired (taking priority over canceled even when the provider
subscription id is absent); otherwise a missing provider subscription id
gives canceled (taking priority over active); otherwise active. -/
theorem status_deriver_first_match (u : Subscriber) (now : Int) :
    (u.plan = Plan.free → getSubscriptionStatus u now = SubStatus.free) ∧
    (u.plan ≠ Plan.free → u.renewalDate = none →
      getSubscriptionStatus u now = SubStatus.canceled) ∧
    (u.plan ≠ Plan.free → ∀ t, u.renewalDate = some t → t ≤ now →
      getSubscriptionStatus u now = SubStatus.expired) ∧
    (u.plan ≠ Plan.free → ∀ t, u.renewalDate = some t → now < t →
      u.paystackSubscriptionId = none →
      getSubscriptionStatus u now = SubStatus.canceled) ∧
    (u.plan ≠ Plan.free → ∀ t, u.renewalDate = some t → now < t →
      u.paystackSubscriptionId ≠ none →
      getSubscriptionStatus u now = SubStatus.active) := by
  refine ⟨?_, ?_, ?_, ?_, ?_⟩
  · intro h1
    simp [getSubscriptionStatus, h1]
  · intro h1 h2
    simp [getSubscriptionStatus, h1, h2]
  · intro h1 t h2 h3
    simp [getSubscriptionStatus, h1, h2, h3]
  · intro h1 t h2 h3 h4
    have h5 : ¬ t ≤ now := by omega
    simp [getSubscriptionStatus, h1, h2, h3, h4, h5]
  · intro h1 t h2 h3 h4
    have h5 : ¬ t ≤ now := by omega
    simp [getSubscriptionStatus, h1, h2, h3, h4, h5]

/-- Witness for C1: a paid subscriber whose renewalDate has passed derives
expired even though the provider subscription id is present. -/
theorem status_deriver_first_match_witness :
    getSubscriptionStatus
      ⟨1, "a@x.com", Plan.monthly, some 5, some "S", true, false, "user"⟩ 10
      = SubStatus.expired :=
  (status_deriver_first_match
    ⟨1, "a@x.com", Plan.monthly, some 5, some "S", true, false, "user"⟩ 10).2.2.1
    (by decide) 5 rfl (by decide)

/-- C4: the sweep is a single bulk update over the store whose match
condition is exactly the selection of the claim (paid plan and renewalDate
strictly older than now minus two days, times in milliseconds), the update
setting plan free and removing renewalDate and paystackSubscriptionId; a
subscriber with renewalDate one day old is left unchanged and a paid
subscriber with renewalDate three days old is downgraded with both billing
fields removed. -/
theorem sweep_downgrades_exactly (now : Int) (store : List Subscriber)
    (u : Subscriber) :
    runSweep now store =
      store.map (fun v => if claimSweepMatch now v then sweepDowngrade v else v) ∧
    (u.renewalDate = some (now - 24 * 60 * 60 * 1000) →
      runSweep now [u] = [u]) ∧
    (u.plan ≠ Plan.free →
      u.renewalDate = some (now - 3 * 24 * 60 * 60 * 1000) →
      runSweep now [u] =
        [{ u with plan := Plan.free, renewalDate := none,
                  paystackSubscriptionId := none }]) := by
  have key : ∀ v : Subscriber, sweepFilter now v = claimSweepMatch now v := by
    intro v
    unfold sweepFilter claimSweepMatch
    cases hv : v.renewalDate <;> cases hp : v.plan <;> simp [hv, hp]
  refine ⟨?_, ?_, ?_⟩
  · unfold runSweep
    simp only [key]
  · intro h
    have h5 : ¬ (now - 24 * 60 * 60 * 1000 < now - 2 * 24 * 60 * 60 * 1000) := by
      omega
    simp [runSweep, sweepFilter, h, h5]
  · intro h1 h2
    have h5 : now - 3 * 24 * 60 * 60 * 1000 < now - 2 * 24 * 60 * 60 * 1000 := by
      omega
    cases hp : u.plan with
    | free => exact absurd hp h1
    | monthly => simp [runSweep, sweepFilter, sweepDowngrade, h2, hp, h5]
    | yearly => simp [runSweep, sweepFilter, sweepDowngrade, h2, hp, h5]

/-- Witness for C4: at now = ten days after the epoch, a monthly subscriber
whose renewalDate lies three days in the past is downgraded with both
billing fields removed. -/
theorem sweep_downgrades_exactly_witness :
    runSweep 864000000
      [⟨1, "a@x.com", Plan.monthly, some 604800000, some "S", true, false, "user"⟩]
      = [⟨1, "a@x.com", Plan.free, none, none, true, false, "user"⟩] :=
  (sweep_downgrades_exactly 864000000 []
    ⟨1, "a@x.com", Plan.monthly, some 604800000, some "S", true, false, "user"⟩).2.2
    (by decide) rfl

/-- C9: a subscription.disable event whose code matches no stored
paystackSubscriptionId leaves every subscriber record unchanged, and the
verified-webhook endpoint still answers 200 to the provider. -/
theorem disable_unknown_code_noop (env : WebhookEnv) (now : CalDate)
    (c : String) (store : List Subscriber)
    (h : ∀ u ∈ store, u.paystackSubscriptionId ≠ some c) :
    paystackWebhookVerified env now
      (WebhookEvent.subscriptionDisable (some c)) store = (200, store) := by
  have hfind : store.find? (fun u => u.paystackSubscriptionId == some c) = none := by
    apply List.find?_eq_none.mpr
    intro x hx
    simp [h x hx]
  simp only [paystackWebhookVerified, processVerifiedEvent,
    downgradeBySubscriptionCode, hfind]

/-- Witness for C9: a two-subscriber store with other subscription codes is
returned unchanged with status 200. -/
theorem disable_unknown_code_noop_witness :
    (∀ u ∈ ([⟨1, "a@x.com", Plan.monthly, some 5, some "SUB_A", true, false, "user"⟩,
             ⟨2, "b@x.com", Plan.free, none, none, true, false, "user"⟩] :
        List Subscriber), u.paystackSubscriptionId ≠ some "SUB_X") ∧
    paystackWebhookVerified ⟨"PLN_M"⟩ ⟨2025, 0, 1⟩
      (WebhookEvent.subscriptionDisable (some "SUB_X"))
      [⟨1, "a@x.com", Plan.monthly, some 5, some "SUB_A", true, false, "user"⟩,
       ⟨2, "b@x.com", Plan.free, none, none, true, false, "user"⟩]
      = (200,
        [⟨1, "a@x.com", Plan.monthly, some 5, some "SUB_A", true, false, "user"⟩,
         ⟨2, "b@x.com", Plan.free, none, none, true, false, "user"⟩]) :=
  ⟨by decide, disable_unknown_code_noop _ _ _ _ (by decide)⟩

/-- C10: a charge.success event whose plan code differs from the configured
monthly plan code (including plan codes matching no configured plan at all)
is not rejected: the resolved subscriber is set to the yearly tier with a
one-year renewal date and the event subscription code. -/
theorem unrecognized_plan_code_maps_to_yearly (env : WebhookEnv)
    (sc e pc : String) (now : CalDate) (store : List Subscriber)
    (u : Subscriber) (hpc : pc ≠ env.monthlyPlanCode)
    (hfind : store.find? (fun v => v.email == lowerString e) = some u) :
    processVerifiedEvent env now (WebhookEvent.chargeSuccess sc (some e) pc)
      store =
      store.map (fun v =>
        if v.id == u.id then
          { v with plan := Plan.yearly,
                   renewalDate := some (dateToMs (addOneYearJS now)),
                   paystackSubscriptionId := some sc }
        else v) := by
  have hpr : chargeSuccessPlanAndRenewal env.monthlyPlanCode pc now
      = (Plan.yearly, addOneYearJS now) := by
    unfold chargeSuccessPlanAndRenewal
    rw [if_neg hpc]
  simp only [processVerifiedEvent, applyChargeSuccess, hfind]
  apply List.map_congr_left
  intro v _
  unfold chargeSuccessUpdate
  rw [hpr]

/-- Witness for C10: a plan code matching no configured plan maps the
resolved subscriber to the yearly tier. -/
theorem unrecognized_plan_code_maps_to_yearly_witness :
    ("PLN_X" : String) ≠ "PLN_M" ∧
    processVerifiedEvent ⟨"PLN_M"⟩ ⟨2025, 0, 15⟩
      (WebhookEvent.chargeSuccess "SUB_1" (some "a@x.com") "PLN_X")
      [⟨1, "a@x.com", Plan.free, none, none, true, false, "user"⟩]
      = [⟨1, "a@x.com", Plan.yearly, some (dateToMs ⟨2026, 0, 15⟩),
          some "SUB_1", true, false, "user"⟩] :=
  ⟨by decide,
    Eq.trans
      (unrecognized_plan_code_maps_to_yearly ⟨"PLN_M"⟩ "SUB_1" "a@x.com" "PLN_X"
        ⟨2025, 0, 15⟩
        [⟨1, "a@x.com", Plan.free, none, none, true, false, "user"⟩]
        ⟨1, "a@x.com", Plan.free, none, none, true, false, "user"⟩
        (by decide) (by decide))
      (by decide)⟩

/-- Helper: the charge.success per-document update keeps the document id. -/
theorem chargeSuccessUpdate_id (env : WebhookEnv) (sc pc : String)
    (now : CalDate) (uid : Nat) (v : Subscriber) :
    (chargeSuccessUpdate env sc pc now uid v).id = v.id := by
  unfold chargeSuccessUpdate
  by_cases hid : (v.id == uid) = true <;> simp [hid]

/-- Helper: the charge.success per-document update keeps the email. -/
theorem chargeSuccessUpdate_email (env : WebhookEnv) (sc pc : String)
    (now : CalDate) (uid : Nat) (v : Subscriber) :
    (chargeSuccessUpdate env sc pc now uid v).email = v.email := by
  unfold chargeSuccessUpdate
  by_cases hid : (v.id == uid) = true <;> simp [hid]

/-- Helper: the charge.success per-document update is idempotent, because
every mutated field is set to a value not depending on the document. -/
theorem chargeSuccessUpdate_idem (env : WebhookEnv) (sc pc : String)
    (now : CalDate) (uid : Nat) (v : Subscriber) :
    chargeSuccessUpdate env sc pc now uid (chargeSuccessUpdate env sc pc now uid v)
      = chargeSuccessUpdate env sc pc now uid v := by
  unfold chargeSuccessUpdate
  by_cases hid : (v.id == uid) = true <;> simp [hid]

/-- Helper: every month has at least 28 days. -/
theorem daysInMonth_ge (y m : Int) : 28 ≤ daysInMonth y m := by
  unfold daysInMonth
  split_ifs <;> norm_num

/-- Helper: every month has at most 31 days. -/
theorem daysInMonth_le (y m : Int) : daysInMonth y m ≤ 31 := by
  unfold daysInMonth
  split_ifs <;> norm_num

/-- Helper: characterization of the JavaScript date normalization for a day
between 1 and 31. The month index is reduced into the year; when the day
fits the resulting month the components are kept, and otherwise the date
rolls into the following month by the excess and in particular differs from
the clamped date of the claim. The result is always a valid date. -/
theorem jsMkDate_spec (y m d : Int) (h1 : 1 ≤ d) (h2 : d ≤ 31) :
    isValidDate (jsMkDate y m d) ∧
    (d ≤ daysInMonth (y + Int.ediv m 12) (Int.emod m 12) →
      jsMkDate y m d = ⟨y + Int.ediv m 12, Int.emod m 12, d⟩) ∧
    (daysInMonth (y + Int.ediv m 12) (Int.emod m 12) < d →
      (jsMkDate y m d).day = d - daysInMonth (y + Int.ediv m 12) (Int.emod m 12) ∧
      jsMkDate y m d ≠ ⟨y + Int.ediv m 12, Int.emod m 12,
        min d (daysInMonth (y + Int.ediv m 12) (Int.emod m 12))⟩) := by
  have hm1a : 0 ≤ Int.emod m 12 := Int.emod_nonneg m (by norm_num)
  have hm1b : Int.emod m 12 < 12 := Int.emod_lt_of_pos m (by norm_num)
  have h28 : 28 ≤ daysInMonth (y + Int.ediv m 12) (Int.emod m 12) :=
    daysInMonth_ge _ _
  unfold jsMkDate
  dsimp only
  split_ifs with hd hm11
  · exact ⟨⟨hm1a, hm1b, h1, hd⟩, fun _ => rfl, fun hlt => absurd hd (by omega)⟩
  · refine ⟨?_, fun hle => absurd hle (by omega), fun hlt => ⟨rfl, ?_⟩⟩
    · have h28b : 28 ≤ daysInMonth (y + Int.ediv m 12 + 1) 0 := daysInMonth_ge _ _
      unfold isValidDate
      dsimp only
      refine ⟨by norm_num, by norm_num, by omega, by omega⟩
    · intro heq
      have := congrArg CalDate.month heq
      dsimp only at this
      omega
  · refine ⟨?_, fun hle => absurd hle (by omega), fun hlt => ⟨rfl, ?_⟩⟩
    · have h28b : 28 ≤ daysInMonth (y + Int.ediv m 12) (Int.emod m 12 + 1) :=
        daysInMonth_ge _ _
      unfold isValidDate
      dsimp only
      refine ⟨by omega, by omega, by omega, by omega⟩
    · intro heq
      have := congrArg CalDate.month heq
      dsimp only at this
      omega

/-- C2 counterexample: a charge.success event with the monthly plan code
processed on 2025-01-31 stores a renewalDate of 2025-03-03 (the JavaScript
month increment rolls the day overflow into March), not the last valid day
of February as the claim states. -/
theorem charge_renewal_not_calendar_clamped :
    processVerifiedEvent ⟨"PLN_M"⟩ ⟨2025, 0, 31⟩
      (WebhookEvent.chargeSuccess "SUB_1" (some "a@x.com") "PLN_M")
      [⟨1, "a@x.com", Plan.free, none, none, true, false, "user"⟩]
      = [⟨1, "a@x.com", Plan.monthly, some (dateToMs ⟨2025, 2, 3⟩),
          some "SUB_1", true, false, "user"⟩] ∧
    addOneMonthJS ⟨2025, 0, 31⟩ = ⟨2025, 2, 3⟩ ∧
    addOneMonthClamped ⟨2025, 0, 31⟩ = ⟨2025, 1, 28⟩ ∧
    dateToMs ⟨2025, 2, 3⟩ ≠ dateToMs ⟨2025, 1, 28⟩ := by decide

/-- C2 amended: the handler computes the new renewalDate as now plus one
month (monthly plan code) or one year (otherwise) under JavaScript Date
normalization: when the day of month fits the target month the result is the
calendar-aware date of the claim, but when the target month is shorter the
date rolls forward into the following month by the excess instead of
clamping to the last valid day; the result is always a valid calendar
date. -/
theorem charge_renewal_js_normalization (mc pc : String) (now : CalDate)
    (h : isValidDate now) :
    (pc = mc →
      chargeSuccessPlanAndRenewal mc pc now = (Plan.monthly, addOneMonthJS now)) ∧
    (pc ≠ mc →
      chargeSuccessPlanAndRenewal mc pc now = (Plan.yearly, addOneYearJS now)) ∧
    isValidDate (addOneMonthJS now) ∧
    isValidDate (addOneYearJS now) ∧
    (now.day ≤ daysInMonth (now.year + Int.ediv (now.month + 1) 12)
        (Int.emod (now.month + 1) 12) →
      addOneMonthJS now = addOneMonthClamped now) ∧
    (daysInMonth (now.year + Int.ediv (now.month + 1) 12)
        (Int.emod (now.month + 1) 12) < now.day →
      (addOneMonthJS now).day
        = now.day - daysInMonth (now.year + Int.ediv (now.month + 1) 12)
            (Int.emod (now.month + 1) 12) ∧
      addOneMonthJS now ≠ addOneMonthClamped now) ∧
    (now.day ≤ daysInMonth (now.year + 1) now.month →
      addOneYearJS now = addOneYearClamped now) ∧
    (daysInMonth (now.year + 1) now.month < now.day →
      (addOneYearJS now).day = now.day - daysInMonth (now.year + 1) now.month ∧
      addOneYearJS now ≠ addOneYearClamped now) := by
  obtain ⟨h0m, hm12, h1d, hdle⟩ := h
  have hd31 : now.day ≤ 31 := le_trans hdle (daysInMonth_le _ _)
  obtain ⟨hvM, hleM, hgtM⟩ := jsMkDate_spec now.year (now.month + 1) now.day h1d hd31
  have e1 : Int.ediv now.month 12 = 0 := Int.ediv_eq_zero_of_lt h0m hm12
  have e2 : Int.emod now.month 12 = now.month := Int.emod_eq_of_lt h0m hm12
  obtain ⟨hvY, hleY, hgtY⟩ := jsMkDate_spec (now.year + 1) now.month now.day h1d hd31
  rw [e1, e2, add_zero] at hleY hgtY
  refine ⟨?_, ?_, hvM, hvY, ?_, ?_, ?_, ?_⟩
  · intro hpc
    unfold chargeSuccessPlanAndRenewal
    rw [if_pos hpc]
  · intro hpc
    unfold chargeSuccessPlanAndRenewal
    rw [if_neg hpc]
  · intro hle
    rw [addOneMonthJS, hleM hle, addOneMonthClamped]
    simp [min_eq_left hle]
  · intro hgt
    obtain ⟨hday, hne⟩ := hgtM hgt
    exact ⟨hday, fun heq => hne (heq.trans (by rw [addOneMonthClamped]))⟩
  · intro hle
    rw [addOneYearJS, hleY hle, addOneYearClamped]
    simp [min_eq_left hle]
  · intro hgt
    obtain ⟨hday, hne⟩ := hgtY hgt
    exact ⟨hday, fun heq => hne (heq.trans (by rw [addOneYearClamped]))⟩

/-- Witness for the C2 amended theorem at 2025-01-31: the month increment
overflows February by three days and differs from the clamped date. -/
theorem charge_renewal_js_normalization_witness :
    isValidDate ⟨2025, 0, 31⟩ ∧
    ((addOneMonthJS ⟨2025, 0, 31⟩).day
        = 31 - daysInMonth (2025 + Int.ediv (0 + 1) 12) (Int.emod (0 + 1) 12) ∧
      addOneMonthJS ⟨2025, 0, 31⟩ ≠ addOneMonthClamped ⟨2025, 0, 31⟩) :=
  ⟨by decide,
    (charge_renewal_js_normalization "PLN_M" "PLN_M" ⟨2025, 0, 31⟩
      (by decide)).2.2.2.2.2.1 (by decide)⟩

/-- C3: applying the same charge.success webhook event twice at the same
processing time yields a store identical to applying it once; the second
application changes nothing beyond the first, because every mutation sets an
absolute computed value. -/
theorem charge_success_idempotent (env : WebhookEnv) (sc : String)
    (em : Option String) (pc : String) (now : CalDate)
    (store : List Subscriber) :
    processVerifiedEvent env now (WebhookEvent.chargeSuccess sc em pc)
      (processVerifiedEvent env now (WebhookEvent.chargeSuccess sc em pc) store)
    = processVerifiedEvent env now (WebhookEvent.chargeSuccess sc em pc) store := by
  simp only [processVerifiedEvent, applyChargeSuccess]
  cases em with
  | none => rfl
  | some e =>
    cases hfind : store.find? (fun v => v.email == lowerString e) with
    | none => simp [hfind]
    | some u =>
      simp only [hfind]
      have hpres : ∀ v : Subscriber,
          ((chargeSuccessUpdate env sc pc now u.id v).email == lowerString e)
            = (v.email == lowerString e) := by
        intro v
        rw [chargeSuccessUpdate_email]
      have hfind2 : (store.map (chargeSuccessUpdate env sc pc now u.id)).find?
          (fun v => v.email == lowerString e)
          = some (chargeSuccessUpdate env sc pc now u.id u) := by
        rw [find_map_congr _ _ hpres store, hfind, Option.map_some']
      simp only [hfind2, chargeSuccessUpdate_id]
      rw [List.map_map]
      apply List.map_congr_left
      intro v _
      exact chargeSuccessUpdate_idem env sc pc now u.id v

/-- C5 counterexample: the alternate handler hashes JSON.stringify of the
parsed body, so for a raw body with an extra space the hashed string is a
re-serialization different from the raw bytes, and two raw bodies differing
only in formatting hash identically (a signature valid for one verifies the
other). -/
theorem signature_hashes_reserialization :
    hashedMessageV2 "\x7b\"a\": 1\x7d" = some "\x7b\"a\":1\x7d" ∧
    ("\x7b\"a\":1\x7d" : String) ≠ "\x7b\"a\": 1\x7d" ∧
    hashedMessageV2 "\x7b\"a\": 1\x7d" = hashedMessageV2 "\x7b\"a\":1\x7d" := by
  decide

/-- C5 amended: the primary handler hashes the exact raw bytes when the body
arrives as a raw Buffer (the raw-body middleware route); when the body is
already parsed JSON, and always in the alternate handler, the HMAC input is
JSON.stringify of the parsed body, so verification depends only on the
parse of the raw bytes and raw bodies differing only in JSON formatting
verify interchangeably. -/
theorem signature_hash_input (hmacHex : String → String → String)
    (secret raw : String) (j : Json) (sig : Option String) (r1 r2 : String)
    (hp : jsonParse r1 = jsonParse r2) :
    hashedMessageV1 (ReqBody.buffer raw) = raw ∧
    hashedMessageV1 (ReqBody.parsed j) = stringifyJson j ∧
    verifyV2 hmacHex secret r1 sig = verifyV2 hmacHex secret r2 sig := by
  refine ⟨rfl, rfl, ?_⟩
  unfold verifyV2
  rw [hp]

/-- Witness for the C5 amended theorem: two JSON-equivalent raw bodies with
different whitespace verify identically in the alternate handler. -/
theorem signature_hash_input_witness :
    jsonParse "\x7b\"a\": 1\x7d" = jsonParse "\x7b\"a\":1\x7d" ∧
    verifyV2 (fun s m => s ++ m) "k" "\x7b\"a\": 1\x7d" (some "sig")
      = verifyV2 (fun s m => s ++ m) "k" "\x7b\"a\":1\x7d" (some "sig") :=
  ⟨by rfl,
    (signature_hash_input (fun s m => s ++ m) "k" "x" Json.null (some "sig")
      "\x7b\"a\": 1\x7d" "\x7b\"a\":1\x7d" (by rfl)).2.2⟩

/-- C7 counterexample: in the subscriptionController cancellation endpoint a
failing provider disable call (HTTP 500 from the gateway) is not surfaced:
the endpoint still answers 200 and the local record is modified (the
provider subscription id is cleared). -/
theorem cancel_gateway_failure_counterexample :
    (unsubscribePaystackSubscription (ProviderDisableOutcome.httpError 500)).success
      = false ∧
    (cancelSubscriptionSC 1 "user" 1 1000000 (ProviderDisableOutcome.httpError 500)
      [⟨1, "a@x.com", Plan.monthly, some 2000000, some "SUB_1", true, false, "user"⟩]).status
      = 200 ∧
    (cancelSubscriptionSC 1 "user" 1 1000000 (ProviderDisableOutcome.httpError 500)
      [⟨1, "a@x.com", Plan.monthly, some 2000000, some "SUB_1", true, false, "user"⟩]).store
      ≠ [⟨1, "a@x.com", Plan.monthly, some 2000000, some "SUB_1", true, false, "user"⟩] := by
  decide

/-- C7 amended: on a failing provider disable call the self-service
cancellation endpoint (userController) surfaces a 500 and leaves the store
unchanged, a provider 404 counts as success, while the subscriptionController
endpoint logs the failure and proceeds regardless, clearing the provider
subscription id and returning 200. -/
theorem cancel_gateway_failure_behavior (uid : Nat)
    (gw : ProviderDisableOutcome) (store : List Subscriber) (u : Subscriber)
    (c : String) (hfind : store.find? (fun v => v.id == uid) = some u)
    (hpsid : u.paystackSubscriptionId = some c)
    (hfail : (unsubscribePaystackSubscription gw).success = false) :
    cancelSubscriptionUC uid gw store = ⟨500, store, none⟩ ∧
    unsubscribePaystackSubscription (ProviderDisableOutcome.httpError 404)
      = ⟨true⟩ ∧
    (∀ rid : Nat, ∀ rrole : String, ∀ now : Int,
      (rid == uid || isElevated rrole) = true →
      u.plan ≠ Plan.free →
      (∀ t, u.renewalDate = some t → now < t) →
      (cancelSubscriptionSC rid rrole uid now gw store).status = 200 ∧
      (cancelSubscriptionSC rid rrole uid now gw store).store
        = store.map (fun v =>
            if v.id == uid then { v with paystackSubscriptionId := none }
            else v)) := by
  refine ⟨?_, rfl, ?_⟩
  · simp [cancelSubscriptionUC, hfind, hpsid, hfail]
  · intro rid rrole now hauth hplan hnotexp
    have hexp : (match u.renewalDate with
                 | some t => decide (t ≤ now)
                 | none => false) = false := by
      cases hrd : u.renewalDate with
      | none => rfl
      | some t =>
        have := hnotexp t hrd
        simp only [decide_eq_false_iff_not]
        omega
    unfold cancelSubscriptionSC
    rw [hauth]
    simp only [Bool.not_true, Bool.false_eq_true, if_false, hfind]
    rw [if_neg hplan, hexp]
    simp only [Bool.false_eq_true, if_false]
    exact ⟨trivial, trivial⟩

/-- Witness for the C7 amended theorem: a network error during disable makes
the self-service endpoint answer 500 with the store unchanged. -/
theorem cancel_gateway_failure_behavior_witness :
    cancelSubscriptionUC 1 ProviderDisableOutcome.networkError
      [⟨1, "a@x.com", Plan.monthly, some 2000000, some "SUB_1", true, false, "user"⟩]
      = ⟨500,
         [⟨1, "a@x.com", Plan.monthly, some 2000000, some "SUB_1", true, false, "user"⟩],
         none⟩ :=
  (cancel_gateway_failure_behavior 1 ProviderDisableOutcome.networkError
    [⟨1, "a@x.com", Plan.monthly, some 2000000, some "SUB_1", true, false, "user"⟩]
    ⟨1, "a@x.com", Plan.monthly, some 2000000, some "SUB_1", true, false, "user"⟩
    "SUB_1" (by decide) rfl (by decide)).1

/-- C8: a successful cancellation of a paid, unexpired subscriber answers
200 with the record in which only the provider subscription id is cleared
(plan, renewalDate and every other field unchanged), persists exactly that
update, and until the stored renewalDate passes the record still derives the
canceled status, which is neither free nor expired: paid-tier access is
retained and only future auto-renewal stops. -/
theorem cancel_success_frame (rid uid : Nat) (rrole : String) (now : Int)
    (gw : ProviderDisableOutcome) (store : List Subscriber) (u : Subscriber)
    (hfind : store.find? (fun v => v.id == uid) = some u)
    (hauth : (rid == uid || isElevated rrole) = true)
    (hplan : u.plan ≠ Plan.free)
    (hnotexp : ∀ t, u.renewalDate = some t → now < t) :
    cancelSubscriptionSC rid rrole uid now gw store
      = ⟨200,
         store.map (fun v =>
           if v.id == uid then { v with paystackSubscriptionId := none }
           else v),
         some { u with paystackSubscriptionId := none }⟩ ∧
    (∀ T, u.renewalDate = some T → ∀ t, t < T →
      getSubscriptionStatus { u with paystackSubscriptionId := none } t
        = SubStatus.canceled ∧
      getSubscriptionStatus { u with paystackSubscriptionId := none } t
        ≠ SubStatus.free ∧
      getSubscriptionStatus { u with paystackSubscriptionId := none } t
        ≠ SubStatus.expired) := by
  have hexp : (match u.renewalDate with
               | some t => decide (t ≤ now)
               | none => false) = false := by
    cases hrd : u.renewalDate with
    | none => rfl
    | some t =>
      have := hnotexp t hrd
      simp only [decide_eq_false_iff_not]
      omega
  constructor
  · unfold cancelSubscriptionSC
    rw [hauth]
    simp only [Bool.not_true, Bool.false_eq_true, if_false, hfind]
    rw [if_neg hplan, hexp]
    simp only [Bool.false_eq_true, if_false]
  · intro T hT t ht
    have hnle : ¬ T ≤ t := by omega
    refine ⟨?_, ?_, ?_⟩ <;> simp [getSubscriptionStatus, hplan, hT, hnle]

/-- Witness for C8: a monthly subscriber with a future renewalDate is
cancelled with only the provider subscription id removed and still derives
canceled before the renewal date. -/
theorem cancel_success_frame_witness :
    cancelSubscriptionSC 1 "user" 1 1000000 (ProviderDisableOutcome.ok true)
      [⟨1, "a@x.com", Plan.monthly, some 2000000, some "SUB_1", true, false, "user"⟩]
      = ⟨200,
         [⟨1, "a@x.com", Plan.monthly, some 2000000, none, true, false, "user"⟩],
         some ⟨1, "a@x.com", Plan.monthly, some 2000000, none, true, false, "user"⟩⟩ ∧
    getSubscriptionStatus
      ⟨1, "a@x.com", Plan.monthly, some 2000000, none, true, false, "user"⟩ 1500000
      = SubStatus.canceled :=
  ⟨Eq.trans
    ((cancel_success_frame 1 1 "user" 1000000 (ProviderDisableOutcome.ok true)
      [⟨1, "a@x.com", Plan.monthly, some 2000000, some "SUB_1", true, false, "user"⟩]
      ⟨1, "a@x.com", Plan.monthly, some 2000000, some "SUB_1", true, false, "user"⟩
      (by decide) (by decide) (by decide)
      (fun t ht => by simp at ht; omega)).1)
    (by decide),
    ((cancel_success_frame 1 1 "user" 1000000 (ProviderDisableOutcome.ok true)
      [⟨1, "a@x.com", Plan.monthly, some 2000000, some "SUB_1", true, false, "user"⟩]
      ⟨1, "a@x.com", Plan.monthly, some 2000000, some "SUB_1", true, false, "user"⟩
      (by decide) (by decide) (by decide)
      (fun t ht => by simp at ht; omega)).2 2000000 rfl 1500000 (by decide)).1⟩

/-- Helper: a fully downgraded record satisfies the billing invariant. -/
theorem billingInvariant_downgrade (u : Subscriber) :
    billingInvariant
      { u with plan := Plan.free, renewalDate := none,
               paystackSubscriptionId := none } :=
  fun _ => ⟨rfl, rfl⟩

/-- Helper: clearing the provider subscription id preserves the billing
invariant. -/
theorem billingInvariant_clear_psid (u : Subscriber)
    (h : billingInvariant u) :
    billingInvariant { u with paystackSubscriptionId := none } := by
  intro hf
  exact ⟨(h hf).1, rfl⟩

/-- Helper: a map whose per-document update preserves the billing invariant
preserves it on the whole store. -/
theorem billingInvariant_map (f : Subscriber → Subscriber)
    (hf : ∀ v, billingInvariant v → billingInvariant (f v))
    (store : List Subscriber) (h : ∀ u ∈ store, billingInvariant u) :
    ∀ u ∈ store.map f, billingInvariant u := by
  intro u hu
  obtain ⟨v, hv, rfl⟩ := List.mem_map.mp hu
  exact hf v (h v hv)

/-- Helper: the charge.success branch never assigns the free plan. -/
theorem chargeSuccessPlanAndRenewal_fst_ne_free (mc pc : String)
    (now : CalDate) : (chargeSuccessPlanAndRenewal mc pc now).1 ≠ Plan.free := by
  unfold chargeSuccessPlanAndRenewal
  split_ifs <;> exact fun hc => Plan.noConfusion hc

/-- Helper: the charge.success per-document update preserves the billing
invariant. -/
theorem billingInvariant_chargeSuccessUpdate (env : WebhookEnv)
    (sc pc : String) (now : CalDate) (uid : Nat) (v : Subscriber)
    (h : billingInvariant v) :
    billingInvariant (chargeSuccessUpdate env sc pc now uid v) := by
  unfold chargeSuccessUpdate
  by_cases hid : (v.id == uid) = true
  · rw [if_pos hid]
    intro hf
    exact absurd hf (chargeSuccessPlanAndRenewal_fst_ne_free _ _ _)
  · rw [if_neg hid]
    exact h

/-- Helper: webhook event dispatch preserves the billing invariant on every
record of the store. -/
theorem billingInvariant_processVerifiedEvent (env : WebhookEnv)
    (now : CalDate) (ev : WebhookEvent) (store : List Subscriber)
    (h : ∀ u ∈ store, billingInvariant u) :
    ∀ u ∈ processVerifiedEvent env now ev store, billingInvariant u := by
  have hdown : ∀ c : Option String,
      ∀ u ∈ downgradeBySubscriptionCode c store, billingInvariant u := by
    intro c
    cases c with
    | none => exact h
    | some code =>
      cases hf : store.find? (fun u => u.paystackSubscriptionId == some code) with
      | none =>
        simp only [downgradeBySubscriptionCode, hf]
        exact h
      | some w =>
        simp only [downgradeBySubscriptionCode, hf]
        apply billingInvariant_map _ _ _ h
        intro v hv
        by_cases hid : (v.id == w.id) = true
        · rw [if_pos hid]
          exact fun _ => ⟨rfl, rfl⟩
        · rw [if_neg hid]
          exact hv
  cases ev with
  | chargeSuccess sc em pc =>
    cases em with
    | none => exact h
    | some e =>
      cases hf : store.find? (fun u => u.email == lowerString e) with
      | none =>
        simp only [processVerifiedEvent, applyChargeSuccess, hf]
        exact h
      | some w =>
        simp only [processVerifiedEvent, applyChargeSuccess, hf]
        exact billingInvariant_map _
          (billingInvariant_chargeSuccessUpdate env sc pc now w.id) store h
  | subscriptionDisable c => exact hdown c
  | subscriptionNotRenew c => exact hdown c
  | invoicePaymentFailed c => exact hdown c
  | invoiceCreate => exact h
  | invoiceUpdate => exact h
  | unhandled n => exact h

/-- Helper: the sweep preserves the billing invariant on every record. -/
theorem billingInvariant_runSweep (now : Int) (store : List Subscriber)
    (h : ∀ u ∈ store, billingInvariant u) :
    ∀ u ∈ runSweep now store, billingInvariant u := by
  unfold runSweep
  apply billingInvariant_map _ _ _ h
  intro v hv
  by_cases hs : sweepFilter now v = true
  · rw [if_pos hs]
    exact billingInvariant_downgrade v
  · rw [if_neg hs]
    exact hv

/-- Helper: the subscriptionController cancellation preserves the billing
invariant on every record of the resulting store. -/
theorem billingInvariant_cancelSC (rid uid : Nat) (rrole : String)
    (now : Int) (gw : ProviderDisableOutcome) (store : List Subscriber)
    (h : ∀ u ∈ store, billingInvariant u) :
    ∀ u ∈ (cancelSubscriptionSC rid rrole uid now gw store).store,
      billingInvariant u := by
  unfold cancelSubscriptionSC
  split
  · exact h
  · split
    · exact h
    · split
      · exact h
      · split
        · exact h
        · apply billingInvariant_map _ _ _ h
          intro v hv
          by_cases hid : (v.id == uid) = true
          · rw [if_pos hid]
            exact billingInvariant_clear_psid v hv
          · rw [if_neg hid]
            exact hv

/-- Helper: the self-service cancellation preserves the billing invariant on
every record of the resulting store. -/
theorem billingInvariant_cancelUC (uid : Nat) (gw : ProviderDisableOutcome)
    (store : List Subscriber) (h : ∀ u ∈ store, billingInvariant u) :
    ∀ u ∈ (cancelSubscriptionUC uid gw store).store, billingInvariant u := by
  unfold cancelSubscriptionUC
  split
  · exact h
  · split
    · exact h
    · split
      · exact h
      · apply billingInvariant_map _ _ _ h
        intro v hv
        by_cases hid : (v.id == uid) = true
        · rw [if_pos hid]
          exact billingInvariant_clear_psid v hv
        · rw [if_neg hid]
          exact hv

/-- Helper: reactivation preserves the billing invariant on every record of
the resulting store. -/
theorem billingInvariant_reactivate (rrole : String) (uid : Nat)
    (p : Option Plan) (rd : Option Int) (psid : Option String)
    (store : List Subscriber) (h : ∀ u ∈ store, billingInvariant u) :
    ∀ u ∈ (reactivateSubscription rrole uid p rd psid store).store,
      billingInvariant u := by
  unfold reactivateSubscription
  split
  · exact h
  · split
    · exact h
    · split_ifs with hfree
      · exact h
      · split
        · exact h
        · split
          · exact h
          · apply billingInvariant_map _ _ _ h
            intro v hv
            by_cases hid : (v.id == uid) = true
            · rw [if_pos hid]
              intro hf
              exact absurd hf hfree
            · rw [if_neg hid]
              exact hv

/-- C6 counterexample: a paid subscriber reached through a charge.success
event who then completes onboarding selecting the free plan ends with plan
free while the provider subscription id is still stored: the onboarding
profile update never clears paystackSubscriptionId, violating the
invariant. -/
theorem billing_invariant_violated_by_onboarding :
    List.map (completeOnboardingBilling Plan.free ⟨2025, 1, 1⟩)
      (processVerifiedEvent ⟨"PLN_M"⟩ ⟨2025, 0, 15⟩
        (WebhookEvent.chargeSuccess "SUB_1" (some "A@x.com") "PLN_M")
        [⟨1, "a@x.com", Plan.free, none, none, true, false, "user"⟩])
      = [⟨1, "a@x.com", Plan.free, none, some "SUB_1", true, false, "user"⟩] ∧
    ¬ billingInvariant
        ⟨1, "a@x.com", Plan.free, none, some "SUB_1", true, false, "user"⟩ := by
  decide

/-- C6 amended: the billing invariant (plan free implies renewalDate and
paystackSubscriptionId both absent) is preserved by webhook processing, by
the expiry sweep, by both cancellation endpoints and by reactivation; it is
not enforced by the onboarding plan selection, which leaves
paystackSubscriptionId untouched. -/
theorem billing_invariant_preserved (env : WebhookEnv) (now : CalDate)
    (ev : WebhookEvent) (msNow : Int) (rid uid : Nat) (rrole : String)
    (gw : ProviderDisableOutcome) (p : Option Plan) (rd : Option Int)
    (psid : Option String) (store : List Subscriber)
    (h : ∀ u ∈ store, billingInvariant u) :
    (∀ u ∈ processVerifiedEvent env now ev store, billingInvariant u) ∧
    (∀ u ∈ runSweep msNow store, billingInvariant u) ∧
    (∀ u ∈ (cancelSubscriptionSC rid rrole uid msNow gw store).store,
      billingInvariant u) ∧
    (∀ u ∈ (cancelSubscriptionUC uid gw store).store, billingInvariant u) ∧
    (∀ u ∈ (reactivateSubscription rrole uid p rd psid store).store,
      billingInvariant u) :=
  ⟨billingInvariant_processVerifiedEvent env now ev store h,
   billingInvariant_runSweep msNow store h,
   billingInvariant_cancelSC rid uid rrole msNow gw store h,
   billingInvariant_cancelUC uid gw store h,
   billingInvariant_reactivate rrole uid p rd psid store h⟩

/-- Witness for the C6 amended theorem: on a concrete store satisfying the
invariant, the sweep result still satisfies it. -/
theorem billing_invariant_preserved_witness :
    (∀ u ∈ ([⟨1, "a@x.com", Plan.monthly, some 5, some "SUB_1", true, false, "user"⟩] :
        List Subscriber), billingInvariant u) ∧
    (∀ u ∈ runSweep 864000000
        [⟨1, "a@x.com", Plan.monthly, some 5, some "SUB_1", true, false, "user"⟩],
      billingInvariant u) :=
  ⟨by decide,
    (billing_invariant_preserved ⟨"PLN_M"⟩ ⟨2025, 0, 1⟩ WebhookEvent.invoiceCreate
      864000000 1 1 "user" (ProviderDisableOutcome.ok true) none none none
      [⟨1, "a@x.com", Plan.monthly, some 5, some "SUB_1", true, false, "user"⟩]
      (by decide)).2.1⟩

end Playeer


